import Mathlib

/-!
# unsend-go: the shared request/response plumbing of the client

A shallow embedding of `unsend.go` (package `unsend`): `NewClient`,
`NewClientWithConfig`, `Client.NewRequest`, `Client.Execute` and
`GetEnvOrDefault`, together with the standard-library functions they call and
whose behaviour the verified properties depend on (`strings.TrimSpace`,
`net/url`, `http.NewRequestWithContext`, `json.Marshal`), as they stand in the Go
standard library (go1.22).

Conventions.
* A Go `string` or `[]byte` handled by `unsend.go` itself is a Lean `String`
  (the text is taken to be valid UTF-8).
* Inside `net/url` a Go string is the list of its bytes (`Bytes`), because
  percent-decoding can produce arbitrary bytes; `bytesOf` is the UTF-8
  encoding that links the two views.
* A Go `error` is a value of `GoError`; a `nil` error is `none`.
* The network (`http.Client.Do`), the reflective JSON encoder and the JSON
  decoder are parameters of the functions that use them.
-/

namespace Unsend

/-! ## Strings as bytes -/

/-- Byte view of a Go string: one natural number below 256 per byte. -/
abbrev Bytes := List Nat

/-- UTF-8 encoding of one code point. -/
def utf8EncodeRune (r : Nat) : Bytes :=
  if r < 0x80 then [r]
  else if r < 0x800 then [0xC0 + r / 64, 0x80 + r % 64]
  else if r < 0x10000 then [0xE0 + r / 4096, 0x80 + r / 64 % 64, 0x80 + r % 64]
  else [0xF0 + r / 262144, 0x80 + r / 4096 % 64, 0x80 + r / 64 % 64, 0x80 + r % 64]

/-- The bytes of a Go string given as text. -/
def bytesOf (s : String) : Bytes :=
  s.data.flatMap fun c => utf8EncodeRune c.toNat

/-! ## Errors -/

/-- Go `error` values that occur in the embedded code. -/
inductive GoError where
  /-- The value of `errors.New(s)` and of `fmt.Errorf` without `%w`: only a text. -/
  | errorString (s : String)
  /-- The value of `fmt.Errorf(msg + "%w", err)`: its text is `msg` followed by the text
  of `err`, and it unwraps to `err`. -/
  | wrapError (msg : String) (err : GoError)
  /-- The `*url.Error` with fields `Op`, `URL`, `Err`. -/
  | urlError (op : String) (url : Bytes) (err : GoError)
  /-- The `url.EscapeError`. -/
  | escapeError (s : Bytes)
  /-- The `url.InvalidHostError`. -/
  | invalidHostError (s : Bytes)
  /-- The value of `fmt.Errorf("invalid port %q after host", colonPort)`. -/
  | invalidPort (colonPort : Bytes)
  /-- The value of `fmt.Errorf("net/http: invalid method %q", method)`. -/
  | invalidMethod (method : String)
  /-- The `*json.SyntaxError`. -/
  | syntaxError
  /-- The `*json.UnmarshalTypeError` with fields `Value` and `Field`. -/
  | unmarshalTypeError (value : String) (field : String)
  /-- The `*json.UnsupportedTypeError` for the Go type named `type`. -/
  | unsupportedTypeError (type : String)
  deriving DecidableEq, Repr

/-! ## Package `strings`, on bytes -/

/-- Go `strings.HasPrefix(s, p)`. -/
def startsWith (s p : Bytes) : Bool := p.isPrefixOf s

/-- Go `strings.HasSuffix(s, p)`. -/
def endsWith (s p : Bytes) : Bool := p.isSuffixOf s

/-- Go `strings.Contains(s, string(b))` for a single byte. -/
def containsByte (b : Nat) (s : Bytes) : Bool := s.contains b

/-- Go `strings.Count(s, string(b))` for a single byte. -/
def countByte (b : Nat) (s : Bytes) : Nat := s.count b

/-- Go `strings.Cut(s, string(b))` for a single byte: before, after, found. -/
def cut (b : Nat) : Bytes → Bytes × Bytes × Bool
  | [] => ([], [], false)
  | c :: cs =>
    if c = b then ([], cs, true)
    else ((c :: (cut b cs).1), (cut b cs).2.1, (cut b cs).2.2)

/-- Go `strings.IndexByte(s, b)`; `none` stands for -1. -/
def indexByte (b : Nat) : Bytes → Option Nat
  | [] => none
  | c :: cs => if c = b then some 0 else (indexByte b cs).map (· + 1)

/-- Go `strings.LastIndexByte(s, b)`; `none` stands for -1. -/
def lastIndexByte (b : Nat) : Bytes → Option Nat
  | [] => none
  | c :: cs =>
    match lastIndexByte b cs with
    | some i => some (i + 1)
    | none => if c = b then some 0 else none

/-- Go `strings.Index(s, sub)`; `none` stands for -1. -/
def indexOfSub (sub : Bytes) : Bytes → Option Nat
  | [] => if sub = [] then some 0 else none
  | c :: cs =>
    if sub.isPrefixOf (c :: cs) then some 0 else (indexOfSub sub cs).map (· + 1)

/-- Go `s[:i+1]` where `i = strings.LastIndex(s, string(b))` (`i = -1` gives `""`). -/
def throughLast (b : Nat) (s : Bytes) : Bytes :=
  match lastIndexByte b s with
  | some i => s.take (i + 1)
  | none => []

/-- ASCII lower-casing, which is what `strings.ToLower` does on a scheme. -/
def toLowerAscii (s : Bytes) : Bytes :=
  s.map fun c => if 65 ≤ c ∧ c ≤ 90 then c + 32 else c

/-! ## Package `net/url` -/

/-- The `encoding` modes of `net/url`. -/
inductive Encoding where
  | encodePath
  | encodePathSegment
  | encodeHost
  | encodeZone
  | encodeUserPassword
  | encodeQueryComponent
  | encodeFragment
  deriving DecidableEq, Repr

/-- Go `url.Userinfo`. -/
structure Userinfo where
  username : Bytes := []
  password : Bytes := []
  passwordSet : Bool := false
  deriving DecidableEq, Repr

/-- Go `url.URL`; `User = none` is the nil pointer. -/
structure URL where
  Scheme : Bytes := []
  Opaque : Bytes := []
  User : Option Userinfo := none
  Host : Bytes := []
  Path : Bytes := []
  RawPath : Bytes := []
  OmitHost : Bool := false
  ForceQuery : Bool := false
  RawQuery : Bytes := []
  Fragment : Bytes := []
  RawFragment : Bytes := []
  deriving DecidableEq, Repr

def isAlpha (c : Nat) : Bool := (97 ≤ c && c ≤ 122) || (65 ≤ c && c ≤ 90)

def isDigit (c : Nat) : Bool := 48 ≤ c && c ≤ 57

/-- Go `ishex`. -/
def ishex (c : Nat) : Bool :=
  isDigit c || (97 ≤ c && c ≤ 102) || (65 ≤ c && c ≤ 70)

/-- Go `unhex`. -/
def unhex (c : Nat) : Nat :=
  if isDigit c then c - 48
  else if 97 ≤ c ∧ c ≤ 102 then c - 97 + 10
  else if 65 ≤ c ∧ c ≤ 70 then c - 65 + 10
  else 0

/-- Go `upperhex[i]` with `upperhex = "0123456789ABCDEF"`. -/
def upperhex (i : Nat) : Nat := if i < 10 then 48 + i else 55 + i

/-- Go `shouldEscape(c, mode)`. -/
def shouldEscape (c : Nat) (mode : Encoding) : Bool :=
  if isAlpha c || isDigit c then false
  else if (mode = .encodeHost ∨ mode = .encodeZone) ∧
      c ∈ [33, 36, 38, 39, 40, 41, 42, 43, 44, 59, 61, 58, 91, 93, 60, 62, 34] then false
  else if c ∈ [45, 95, 46, 126] then false
  else if c ∈ [36, 38, 43, 44, 47, 58, 59, 61, 63, 64] ∧
      mode ∈ [Encoding.encodePath, .encodePathSegment, .encodeUserPassword,
        .encodeQueryComponent, .encodeFragment] then
    match mode with
    | .encodePath => c = 63
    | .encodePathSegment => c = 47 || c = 59 || c = 44 || c = 63
    | .encodeUserPassword => c = 64 || c = 47 || c = 63 || c = 58
    | .encodeQueryComponent => true
    | _ => false
  else if mode = .encodeFragment ∧ c ∈ [33, 40, 41, 42] then false
  else true

/-- First pass of Go `unescape`: the well-formedness check; `none` when it passes. -/
def unescapeCheck (mode : Encoding) : Bytes → Option GoError
  | [] => none
  | c :: rest =>
    if c = 37 then
      match rest with
      | h1 :: h2 :: rest2 =>
        if !(ishex h1 && ishex h2) then some (.escapeError ((c :: rest).take 3))
        else if mode = .encodeHost ∧ unhex h1 < 8 ∧ [c, h1, h2] ≠ [37, 50, 53] then
          some (.escapeError [c, h1, h2])
        else if mode = .encodeZone ∧ [c, h1, h2] ≠ [37, 50, 53] ∧
            unhex h1 * 16 + unhex h2 ≠ 32 ∧
            shouldEscape (unhex h1 * 16 + unhex h2) .encodeHost then
          some (.escapeError [c, h1, h2])
        else unescapeCheck mode rest2
      | _ => some (.escapeError ((c :: rest).take 3))
    else if c = 43 then unescapeCheck mode rest
    else if (mode = .encodeHost ∨ mode = .encodeZone) ∧ c < 128 ∧
        shouldEscape c .encodeHost then
      some (.invalidHostError [c])
    else unescapeCheck mode rest

/-- Second pass of Go `unescape`: the decoding of a checked string. -/
def unescapeDecode (mode : Encoding) : Bytes → Bytes
  | [] => []
  | c :: rest =>
    if c = 37 then
      match rest with
      | h1 :: h2 :: rest2 => (unhex h1 * 16 + unhex h2) :: unescapeDecode mode rest2
      | _ => []
    else if c = 43 then
      (if mode = .encodeQueryComponent then 32 else 43) :: unescapeDecode mode rest
    else c :: unescapeDecode mode rest

/-- Go `unescape(s, mode)`. -/
def unescape (s : Bytes) (mode : Encoding) : Except GoError Bytes :=
  match unescapeCheck mode s with
  | some e => .error e
  | none => .ok (unescapeDecode mode s)

/-- Go `escape(s, mode)`. -/
def escape (s : Bytes) (mode : Encoding) : Bytes :=
  s.flatMap fun c =>
    if c = 32 ∧ mode = .encodeQueryComponent then [43]
    else if shouldEscape c mode then [37, upperhex (c / 16), upperhex (c % 16)]
    else [c]

/-- Go `validEncoded(s, mode)`. -/
def validEncoded (s : Bytes) (mode : Encoding) : Bool :=
  s.all fun c =>
    if c ∈ [33, 36, 38, 39, 40, 41, 42, 43, 44, 59, 61, 58, 64] then true
    else if c = 91 ∨ c = 93 then true
    else if c = 37 then true
    else !shouldEscape c mode

/-- Go `(*URL).setPath(p)`: on error the URL is not modified. -/
def URL.setPath (u : URL) (p : Bytes) : Except GoError URL :=
  match unescape p .encodePath with
  | .error e => .error e
  | .ok path =>
    .ok { u with Path := path, RawPath := if p = escape path .encodePath then [] else p }

/-- Go `(*URL).EscapedPath()`. -/
def URL.EscapedPath (u : URL) : Bytes :=
  let hint : Bool :=
    match unescape u.RawPath .encodePath with
    | .ok p => p = u.Path
    | .error _ => false
  if u.RawPath ≠ [] ∧ validEncoded u.RawPath .encodePath ∧ hint then u.RawPath
  else if u.Path = [42] then [42]
  else escape u.Path .encodePath

/-- Go `(*URL).setFragment(f)`. -/
def URL.setFragment (u : URL) (f : Bytes) : Except GoError URL :=
  match unescape f .encodeFragment with
  | .error e => .error e
  | .ok frag =>
    .ok { u with Fragment := frag,
                 RawFragment := if f = escape frag .encodeFragment then [] else f }

/-- Go `(*URL).EscapedFragment()`. -/
def URL.EscapedFragment (u : URL) : Bytes :=
  let hint : Bool :=
    match unescape u.RawFragment .encodeFragment with
    | .ok f => f = u.Fragment
    | .error _ => false
  if u.RawFragment ≠ [] ∧ validEncoded u.RawFragment .encodeFragment ∧ hint then
    u.RawFragment
  else escape u.Fragment .encodeFragment

/-- Go `stringContainsCTLByte`. -/
def stringContainsCTLByte (s : Bytes) : Bool := s.any fun b => b < 32 || b = 127

/-- The loop of Go `getScheme`; `i` is the index of the head of the third argument. -/
def getSchemeLoop (rawURL : Bytes) : Nat → Bytes → Except GoError (Bytes × Bytes)
  | _, [] => .ok ([], rawURL)
  | i, c :: cs =>
    if isAlpha c then getSchemeLoop rawURL (i + 1) cs
    else if isDigit c || c = 43 || c = 45 || c = 46 then
      if i = 0 then .ok ([], rawURL) else getSchemeLoop rawURL (i + 1) cs
    else if c = 58 then
      if i = 0 then .error (.errorString "missing protocol scheme")
      else .ok (rawURL.take i, cs)
    else .ok ([], rawURL)

/-- Go `getScheme(rawURL)`: scheme and rest. -/
def getScheme (rawURL : Bytes) : Except GoError (Bytes × Bytes) :=
  getSchemeLoop rawURL 0 rawURL

/-- Go `validOptionalPort`. -/
def validOptionalPort (port : Bytes) : Bool :=
  match port with
  | [] => true
  | c :: rest => c = 58 && rest.all isDigit

/-- Go `validUserinfo`. -/
def validUserinfo (s : Bytes) : Bool :=
  s.all fun r =>
    isAlpha r || isDigit r ||
      r ∈ [45, 46, 95, 58, 126, 33, 36, 38, 39, 40, 41, 42, 43, 44, 59, 61, 37, 64]

/-- Go `parseHost`. -/
def parseHost (host : Bytes) : Except GoError Bytes :=
  if startsWith host [91] then
    match lastIndexByte 93 host with
    | none => .error (.errorString "missing ']' in host")
    | some i =>
      let colonPort := host.drop (i + 1)
      if !validOptionalPort colonPort then .error (.invalidPort colonPort)
      else
        match indexOfSub [37, 50, 53] (host.take i) with
        | some zone => do
          let host1 ← unescape (host.take zone) .encodeHost
          let host2 ← unescape ((host.take i).drop zone) .encodeZone
          let host3 ← unescape (host.drop i) .encodeHost
          pure (host1 ++ host2 ++ host3)
        | none => unescape host .encodeHost
  else
    match lastIndexByte 58 host with
    | some i =>
      let colonPort := host.drop i
      if !validOptionalPort colonPort then .error (.invalidPort colonPort)
      else unescape host .encodeHost
    | none => unescape host .encodeHost

/-- Go `parseAuthority`. -/
def parseAuthority (authority : Bytes) : Except GoError (Option Userinfo × Bytes) :=
  match lastIndexByte 64 authority with
  | none => do
    let host ← parseHost authority
    pure (none, host)
  | some i => do
    let host ← parseHost (authority.drop (i + 1))
    let userinfo := authority.take i
    if !validUserinfo userinfo then
      throw (.errorString "net/url: invalid userinfo")
    if !containsByte 58 userinfo then
      let userinfo ← unescape userinfo .encodeUserPassword
      pure (some { username := userinfo }, host)
    else
      let username ← unescape (cut 58 userinfo).1 .encodeUserPassword
      let password ← unescape (cut 58 userinfo).2.1 .encodeUserPassword
      pure (some { username := username, password := password, passwordSet := true }, host)

/-- Go `parse(rawURL, viaRequest)`. -/
def parse (rawURL : Bytes) (viaRequest : Bool) : Except GoError URL := do
  if stringContainsCTLByte rawURL then
    throw (.errorString "net/url: invalid control character in URL")
  if rawURL = [] ∧ viaRequest then
    throw (.errorString "empty url")
  if rawURL = [42] then
    return { Path := [42] }
  let (scheme, rest) ← getScheme rawURL
  let scheme := toLowerAscii scheme
  let forceQuery := endsWith rest [63] && countByte 63 rest == 1
  let rawQuery := if forceQuery then [] else (cut 63 rest).2.1
  let rest := if forceQuery then rest.dropLast else (cut 63 rest).1
  let url : URL := { Scheme := scheme, ForceQuery := forceQuery, RawQuery := rawQuery }
  if !startsWith rest [47] then
    if scheme ≠ [] then
      return { url with Opaque := rest }
    if viaRequest then
      throw (.errorString "invalid URI for request")
    if containsByte 58 (cut 47 rest).1 then
      throw (.errorString "first path segment in URL cannot contain colon")
  if (scheme ≠ [] || (!viaRequest && !startsWith rest [47, 47, 47])) &&
      startsWith rest [47, 47] then
    let authority := rest.drop 2
    let (authority, rest) :=
      match indexByte 47 authority with
      | some i => (authority.take i, authority.drop i)
      | none => (authority, [])
    let (user, host) ← parseAuthority authority
    ({ url with User := user, Host := host } : URL).setPath rest
  else if scheme ≠ [] && startsWith rest [47] then
    ({ url with OmitHost := true } : URL).setPath rest
  else
    url.setPath rest

/-- Go `url.Parse(rawURL)`. -/
def Parse (rawURL : Bytes) : Except GoError URL :=
  let u := (cut 35 rawURL).1
  let frag := (cut 35 rawURL).2.1
  match parse u false with
  | .error err => .error (.urlError "parse" u err)
  | .ok url =>
    if frag = [] then .ok url
    else
      match url.setFragment frag with
      | .error err => .error (.urlError "parse" rawURL err)
      | .ok url => .ok url

/-- Go `(*Userinfo).String()` for a non-nil receiver. -/
def Userinfo.String (u : Userinfo) : Bytes :=
  escape u.username .encodeUserPassword ++
    (if u.passwordSet then 58 :: escape u.password .encodeUserPassword else [])

/-- Go `(*URL).String()`; every `buf` is the content of the string builder so far. -/
def URL.String (u : URL) : Bytes :=
  let buf : Bytes := if u.Scheme ≠ [] then u.Scheme ++ [58] else []
  let buf : Bytes :=
    if u.Opaque ≠ [] then buf ++ u.Opaque
    else
      let buf : Bytes :=
        if u.Scheme ≠ [] ∨ u.Host ≠ [] ∨ u.User ≠ none then
          if u.OmitHost ∧ u.Host = [] ∧ u.User = none then buf
          else
            let buf : Bytes :=
              if u.Host ≠ [] ∨ u.Path ≠ [] ∨ u.User ≠ none then buf ++ [47, 47] else buf
            let buf : Bytes :=
              match u.User with
              | some ui => buf ++ ui.String ++ [64]
              | none => buf
            if u.Host ≠ [] then buf ++ escape u.Host .encodeHost else buf
        else buf
      let path := u.EscapedPath
      let buf : Bytes :=
        if path ≠ [] ∧ path.head? ≠ some 47 ∧ u.Host ≠ [] then buf ++ [47] else buf
      let buf : Bytes :=
        if buf = [] ∧ containsByte 58 (cut 47 path).1 then buf ++ [46, 47] else buf
      buf ++ path
  let buf : Bytes :=
    if u.ForceQuery ∨ u.RawQuery ≠ [] then buf ++ [63] ++ u.RawQuery else buf
  if u.Fragment ≠ [] then buf ++ [35] ++ u.EscapedFragment else buf

/-- Go `strings.Split(s, "/")`: the elements that the loop of `resolvePath` obtains by
calling `strings.Cut(remaining, "/")` until nothing is found. -/
def splitSlash : Bytes → List Bytes
  | [] => [[]]
  | c :: cs =>
    if c = 47 then [] :: splitSlash cs
    else
      match splitSlash cs with
      | [] => [[c]]
      | s :: ss => (c :: s) :: ss

/-- One iteration of the loop of Go `resolvePath` on the element `elem`; the state is
the content of `dst` (with the leading slash written before the loop) and `first`. -/
def resolveStep (st : Bytes × Bool) (elem : Bytes) : Bytes × Bool :=
  if elem = [46] then (st.1, false)
  else if elem = [46, 46] then
    let str := st.1.drop 1
    match lastIndexByte 47 str with
    | none => ([47], true)
    | some index => (47 :: str.take index, st.2)
  else
    ((if st.2 then st.1 else st.1 ++ [47]) ++ elem, false)

/-- Go `resolvePath(base, ref)`. -/
def resolvePath (base ref : Bytes) : Bytes :=
  let full : Bytes :=
    if ref = [] then base
    else if ref.head? ≠ some 47 then throughLast 47 base ++ ref
    else ref
  if full = [] then []
  else
    let elems := splitSlash full
    let dst := (elems.foldl resolveStep ([47], true)).1
    let elem := elems.getLast?.getD []
    let dst := if elem = [46] ∨ elem = [46, 46] then dst ++ [47] else dst
    if dst.length > 1 ∧ dst.get? 1 = some 47 then dst.drop 1 else dst

/-- The merge of a base path and a reference path (RFC 3986, section 5.2.3), which is
the value of `full` in `resolvePath` for a reference that is not empty: a reference
that starts with a slash stands for itself, and any other reference follows the base
path cut after its last slash. -/
def mergePaths (base ref : Bytes) : Bytes :=
  if ref.head? ≠ some 47 then throughLast 47 base ++ ref else ref

/-- The elements joined with slashes, with a slash in front unless `first`. -/
def joinElems : Bool → List Bytes → Bytes
  | _, [] => []
  | true, e :: es => e ++ joinElems false es
  | false, e :: es => 47 :: (e ++ joinElems false es)

/-- Go `(*URL).ResolveReference(ref)`; the error of `setPath` is ignored as in Go. -/
def URL.ResolveReference (u ref : URL) : URL :=
  let url : URL := if ref.Scheme = [] then { ref with Scheme := u.Scheme } else ref
  let setPathIgnoringError (url : URL) (p : Bytes) : URL :=
    match url.setPath p with
    | .ok url2 => url2
    | .error _ => url
  if ref.Scheme ≠ [] ∨ ref.Host ≠ [] ∨ ref.User ≠ none then
    setPathIgnoringError url (resolvePath ref.EscapedPath [])
  else if ref.Opaque ≠ [] then
    { url with User := none, Host := [], Path := [] }
  else
    let url : URL :=
      if ref.Path = [] ∧ !ref.ForceQuery ∧ ref.RawQuery = [] then
        if ref.Fragment = [] then
          { url with RawQuery := u.RawQuery, Fragment := u.Fragment,
                     RawFragment := u.RawFragment }
        else { url with RawQuery := u.RawQuery }
      else url
    if ref.Path = [] ∧ u.Opaque ≠ [] then
      { url with Opaque := u.Opaque, User := none, Host := [], Path := [] }
    else
      setPathIgnoringError { url with Host := u.Host, User := u.User }
        (resolvePath u.EscapedPath ref.EscapedPath)

/-- Go `(*URL).Parse(ref)`. -/
def URL.Parse (u : URL) (ref : Bytes) : Except GoError URL :=
  match Unsend.Parse ref with
  | .error err => .error err
  | .ok refURL => .ok (u.ResolveReference refURL)

/-! ## Package `strings`: `TrimSpace` -/

/-- Go `unicode.IsSpace(r)`. -/
def IsSpace (r : Char) : Bool :=
  if r.toNat ≤ 0xFF then
    r.toNat ∈ [0x09, 0x0A, 0x0B, 0x0C, 0x0D, 0x20, 0x85, 0xA0]
  else
    r.toNat = 0x1680 || (0x2000 ≤ r.toNat && r.toNat ≤ 0x200A) ||
      (0x2028 ≤ r.toNat && r.toNat ≤ 0x2029) || r.toNat = 0x202F ||
      r.toNat = 0x205F || r.toNat = 0x3000

/-- Go `strings.TrimSpace(s)`: `s` without its leading and trailing white space, as
defined by Unicode. -/
def TrimSpace (s : String) : String :=
  ⟨((s.data.dropWhile IsSpace).reverse.dropWhile IsSpace).reverse⟩

/-! ## Package `net/http`: requests and responses -/

/-- The `Body` of a Go `http.Request`: `nil`, `http.NoBody`, or a reader over `data`. -/
inductive ReqBody where
  | nil
  | noBody
  | reader (data : String)
  deriving DecidableEq, Repr

/-- What reading the body to its end yields; `none` when there is no body at all. -/
def ReqBody.payload : ReqBody → Option String
  | .nil => none
  | .noBody => some ""
  | .reader data => some data

/-- The fields of a Go `http.Request` that `NewRequestWithContext` sets from its
arguments (the context is `context.Background()` and the header is empty). -/
structure Request where
  Method : String
  URL : URL
  Host : Bytes
  Body : ReqBody
  ContentLength : Nat
  deriving DecidableEq, Repr

/-- Go `httpguts.IsTokenRune(r)`. -/
def IsTokenRune (r : Char) : Bool :=
  r.toNat < 128 &&
    (isAlpha r.toNat || isDigit r.toNat ||
      r.toNat ∈ [33, 35, 36, 37, 38, 39, 42, 43, 45, 46, 94, 95, 96, 124, 126])

/-- Go `validMethod(method)`. -/
def validMethod (method : String) : Bool :=
  method.data.length > 0 && method.data.all IsTokenRune

/-- Go `hasPort(s)`: the last colon comes after the last closing bracket. -/
def hasPort (s : Bytes) : Bool :=
  match lastIndexByte 58 s, lastIndexByte 93 s with
  | some i, some j => decide (j < i)
  | some _, none => true
  | none, _ => false

/-- Go `removeEmptyPort(host)`. -/
def removeEmptyPort (host : Bytes) : Bytes :=
  if hasPort host then (if endsWith host [58] then host.dropLast else host) else host

/-- Go `http.NewRequestWithContext(context.Background(), method, url, body)` where
`body` is `nil` (`none`) or a `*bytes.Reader` over the given data. -/
def NewRequestWithContext (method : String) (url : Bytes) (body : Option String) :
    Except GoError Request :=
  let method := if method = "" then "GET" else method
  if !validMethod method then .error (.invalidMethod method)
  else
    match Parse url with
    | .error err => .error err
    | .ok u =>
      let host := removeEmptyPort u.Host
      let contentLength : Nat :=
        match body with
        | none => 0
        | some data => (bytesOf data).length
      let reqBody : ReqBody :=
        match body with
        | none => .nil
        | some data => if contentLength = 0 then .noBody else .reader data
      .ok { Method := method, URL := { u with Host := host }, Host := host,
            Body := reqBody, ContentLength := contentLength }

/-- The fields of a Go `http.Response` that `Execute` uses: the status code, and what
`io.ReadAll(resp.Body)` returns (the data read and the error, `none` for `nil`). -/
structure Response where
  StatusCode : Int
  Body : String × Option GoError

/-! ## Package `encoding/json` -/

/-- Go `json.Marshal(v)`: the reflective encoder `encode` (Go `encodeState.marshal`) is a
parameter; on its failure `Marshal` returns a nil slice and the error. -/
def jsonMarshal {β : Type} (encode : β → Except GoError String) (v : β) :
    String × Option GoError :=
  match encode v with
  | .error err => ("", some err)
  | .ok buf => (buf, none)

/-! ## `unsend.go` -/

/-- Address of a `Client` on the heap. -/
abbrev Ptr := Nat

/-- Modelled from the spec: the type `UnsendTransport` is declared outside `unsend.go`;
it is the auth-injecting transport that carries the credential, and the literal
`&UnsendTransport{ApiKey: config.ApiKey}` sets exactly this field. -/
structure UnsendTransport where
  ApiKey : String
  deriving DecidableEq, Repr

/-- The fields of Go `http.Client` that the constructor sets; `Timeout` in nanoseconds. -/
structure HttpClient where
  Timeout : Nat
  Transport : UnsendTransport
  deriving DecidableEq, Repr

/-- Modelled from the spec: the type `ContactsImpl` is declared outside `unsend.go`; it
is the contacts sub-handle, holding a non-owning back-reference to its `Client`, the
one field the literal `&ContactsImpl{Client: client}` sets. -/
structure ContactsImpl where
  Client : Ptr
  deriving DecidableEq, Repr

/-- Modelled from the spec: the type `DomainsImpl` is declared outside `unsend.go`; it
is the domains sub-handle, holding a non-owning back-reference to its `Client`. -/
structure DomainsImpl where
  Client : Ptr
  deriving DecidableEq, Repr

/-- Modelled from the spec: the type `EmailsImpl` is declared outside `unsend.go`; it is
the emails sub-handle, holding a non-owning back-reference to its `Client`. -/
structure EmailsImpl where
  Client : Ptr
  deriving DecidableEq, Repr

set_option linter.dupNamespace false in
/-- Go `Client`. The three interface fields are `none` while they are nil. -/
structure Client where
  Client : HttpClient
  ApiKey : String
  BaseUrl : URL
  Contacts : Option ContactsImpl
  Domains : Option DomainsImpl
  Emails : Option EmailsImpl
  deriving DecidableEq, Repr

/-- Go `ClientConfig`. -/
structure ClientConfig where
  ApiKey : String
  BaseUrl : String
  deriving DecidableEq, Repr

/-- The allocated `Client` objects; the address of an object is its index. -/
abbrev Heap := List Client

/-- Go `time.Second`, in nanoseconds. -/
def Second : Nat := 1000000000

/-- Go `NewClientWithConfig(config)`: the returned pointer (or the error, with a nil
pointer) and the heap after the call. -/
def NewClientWithConfig (heap : Heap) (config : ClientConfig) :
    Except GoError Ptr × Heap :=
  if TrimSpace config.ApiKey = "" then
    (.error (.errorString "no value found for API Key"), heap)
  else
    match Parse (bytesOf config.BaseUrl) with
    | .error err => (.error err, heap)
    | .ok baseUrl =>
      let client : Ptr := heap.length
      let obj : Client :=
        { ApiKey := config.ApiKey,
          Client := { Timeout := Second * 30, Transport := { ApiKey := config.ApiKey } },
          BaseUrl := baseUrl,
          Contacts := none, Domains := none, Emails := none }
      let obj : Client := { obj with Contacts := some { Client := client } }
      let obj : Client := { obj with Domains := some { Client := client } }
      let obj : Client := { obj with Emails := some { Client := client } }
      (.ok client, heap ++ [obj])

/-- The package constants `ENV_KEY_API_KEY`, `ENV_KEY_BASE_URL` and `DEFAULT_BASE_URL`,
which are declared outside `unsend.go`. -/
structure Consts where
  ENV_KEY_API_KEY : String
  ENV_KEY_BASE_URL : String
  DEFAULT_BASE_URL : String

/-- The process environment: Go `os.LookupEnv`. -/
abbrev Env := String → Option String

/-- Go `os.Getenv(key)`. -/
def Getenv (env : Env) (key : String) : String := (env key).getD ""

/-- Go `GetEnvOrDefault(envVariable, defaultValue)`: the value and what is printed. -/
def GetEnvOrDefault (env : Env) (envVariable defaultValue : String) :
    String × List String :=
  match env envVariable with
  | none =>
    (defaultValue,
      [envVariable ++ " not set. Using default value of " ++ defaultValue ++ "\n"])
  | some val => (val, [])

/-- Go `NewClient()`: the result of `NewClientWithConfig` and what is printed. -/
def NewClient (k : Consts) (env : Env) (heap : Heap) :
    (Except GoError Ptr × Heap) × List String :=
  let ApiKey := Getenv env k.ENV_KEY_API_KEY
  let baseURL := GetEnvOrDefault env k.ENV_KEY_BASE_URL k.DEFAULT_BASE_URL
  (NewClientWithConfig heap { ApiKey := ApiKey, BaseUrl := baseURL.1 }, baseURL.2)

/-- Go `(*Client).NewRequest(method, urlAsString, body)`; `body = none` is the nil
interface, and `encode` is the JSON encoder for the type of the body. -/
def Client.NewRequest {β : Type} (encode : β → Except GoError String)
    (c : Unsend.Client) (method urlAsString : String) (body : Option β) :
    Except GoError Request :=
  match c.BaseUrl.Parse (bytesOf urlAsString) with
  | .error err => .error err
  | .ok url =>
    let requestBody : Option String :=
      match body with
      | none => none
      | some b => some (jsonMarshal encode b).1
    NewRequestWithContext method url.String requestBody

/-- Go `%d` of an `int`. -/
def formatInt (n : Int) : String :=
  if n < 0 then "-" ++ Nat.repr n.natAbs else Nat.repr n.toNat

/-- Go `(*Client).Execute(req, result)`: the content of the result sink after the call
and the returned error. `doRequest` is `c.Client.Do` (the network) and `unmarshal` is
`json.Unmarshal` into the type of the sink: it returns the sink as it leaves it, and
its error. -/
def Client.Execute {σ : Type} (doRequest : HttpClient → Request → Except GoError Response)
    (unmarshal : String → σ → σ × Option GoError) (c : Unsend.Client) (req : Request)
    (result : σ) : σ × Option GoError :=
  match doRequest c.Client req with
  | .error err => (result, some (.wrapError "request failed: " err))
  | .ok resp =>
    match resp.Body with
    | (_, some err) => (result, some (.wrapError "failed to read response body: " err))
    | (respBody, none) =>
      if resp.StatusCode < 200 ∨ resp.StatusCode ≥ 300 then
        (result, some (.errorString
          ("received non-2xx response: " ++ formatInt resp.StatusCode ++ " - " ++ respBody)))
      else
        match unmarshal respBody result with
        | (decoded, some err) =>
          (decoded, some (.wrapError "failed to unmarshal response: " err))
        | (decoded, none) => (decoded, none)

deriving instance DecidableEq for Except

/-! ## Concrete collaborators used in the examples

A result shape and a request body type with their JSON decoder and encoder, and a
constant network. They instantiate the parameters of `Execute` and `NewRequest` at
concrete inputs; the general theorems hold for every decoder, encoder and network. -/

/-- A result shape: Go `struct { ID string; Name string }` with the field tags
`json:"id"` and `json:"name"`. -/
structure IdName where
  ID : String
  Name : String
  deriving DecidableEq, Repr

inductive JsonToken where
  | lbrace
  | rbrace
  | colon
  | comma
  | str (s : String)
  | num (s : String)
  deriving DecidableEq, Repr

inductive LexMode where
  | outside
  | inString (acc : List Char)
  | inNumber (acc : List Char)

def punct (c : Nat) : Option JsonToken :=
  if c = 123 then some .lbrace
  else if c = 125 then some .rbrace
  else if c = 58 then some .colon
  else if c = 44 then some .comma
  else none

def isJsonSpace (c : Nat) : Bool := c = 32 || c = 9 || c = 10 || c = 13

/-- Scanner for the fragment of JSON made of braces, colons, commas, strings without
escapes and integers; `none` outside this fragment. -/
def lexJson : LexMode → List Char → Option (List JsonToken)
  | .outside, [] => some []
  | .outside, c :: cs =>
    if isJsonSpace c.toNat then lexJson .outside cs
    else if c.toNat = 34 then lexJson (.inString []) cs
    else if c.toNat = 45 || isDigit c.toNat then lexJson (.inNumber [c]) cs
    else
      match punct c.toNat with
      | some t => (lexJson .outside cs).map (t :: ·)
      | none => none
  | .inString _, [] => none
  | .inString acc, c :: cs =>
    if c.toNat = 34 then (lexJson .outside cs).map (.str ⟨acc.reverse⟩ :: ·)
    else if c.toNat = 92 || c.toNat < 32 then none
    else lexJson (.inString (c :: acc)) cs
  | .inNumber acc, [] => some [.num ⟨acc.reverse⟩]
  | .inNumber acc, c :: cs =>
    if isDigit c.toNat then lexJson (.inNumber (c :: acc)) cs
    else if isJsonSpace c.toNat then (lexJson .outside cs).map (.num ⟨acc.reverse⟩ :: ·)
    else
      match punct c.toNat with
      | some t => (lexJson .outside cs).map (fun ts => .num ⟨acc.reverse⟩ :: t :: ts)
      | none => none

/-- A JSON integer literal: an optional minus sign, then `0` or a digit string that
does not start with `0`. -/
def validInt (s : String) : Bool :=
  let digits := if s.data.head? = some (Char.ofNat 45) then s.data.drop 1 else s.data
  digits.length > 0 && digits.all (fun c => isDigit c.toNat) &&
    (digits.length = 1 || digits.head? ≠ some (Char.ofNat 48))

/-- The members after the first one of an object, up to the closing brace. -/
def parseMembers : List JsonToken → Option (List (String × JsonToken))
  | [.rbrace] => some []
  | .comma :: .str k :: .colon :: .str v :: rest =>
    (parseMembers rest).map ((k, .str v) :: ·)
  | .comma :: .str k :: .colon :: .num v :: rest =>
    if validInt v then (parseMembers rest).map ((k, .num v) :: ·) else none
  | _ => none

/-- The members of a JSON object whose values are strings or integers. -/
def parseObject (ts : List JsonToken) : Option (List (String × JsonToken)) :=
  match ts with
  | [.lbrace, .rbrace] => some []
  | .lbrace :: rest => parseMembers (.comma :: rest)
  | _ => none

/-- The ASCII case folding with which `encoding/json` matches a key to a field. -/
def foldKey (k : String) : String := ⟨k.data.map Char.toLower⟩

/-- Decoding of one object member into an `IdName`: a string value is stored in the
field its key names, a number for a string field is recorded as a type error (the
first such error is kept) and decoding goes on, and an unknown key is skipped. -/
def decodeMember (st : IdName × Option GoError) (m : String × JsonToken) :
    IdName × Option GoError :=
  if foldKey m.1 = "id" then
    match m.2 with
    | .str v => ({ st.1 with ID := v }, st.2)
    | _ => (st.1, st.2.orElse fun _ => some (.unmarshalTypeError "number" "id"))
  else if foldKey m.1 = "name" then
    match m.2 with
    | .str v => ({ st.1 with Name := v }, st.2)
    | _ => (st.1, st.2.orElse fun _ => some (.unmarshalTypeError "number" "name"))
  else st

/-- Go `json.Unmarshal(data, &v)` for `v` of the shape `IdName`, on the fragment of JSON
that `lexJson` and `parseObject` accept (objects whose values are strings without
escapes or integers, keys in ASCII): the data is first checked as a whole, and a sink
stays untouched when that check fails; then the members are decoded in order. Data
outside the fragment is reported as a syntax error. -/
def unmarshalIdName (data : String) (v : IdName) : IdName × Option GoError :=
  match (lexJson .outside data.data).bind parseObject with
  | none => (v, some .syntaxError)
  | some members => members.foldl decodeMember (v, none)

/-- A request body type: a Go `int`, or a channel (which JSON cannot represent). -/
inductive IntOrChan where
  | int (n : Int)
  | chan
  deriving DecidableEq, Repr

/-- The JSON encoder on `IntOrChan`: an `int` is its decimal text, and a channel is an
unsupported type. -/
def encodeIntOrChan : IntOrChan → Except GoError String
  | .int n => .ok (formatInt n)
  | .chan => .error (.unsupportedTypeError "chan int")

/-- A network that answers every request with the given status code and body. -/
def constNetwork (code : Int) (body : String) (_ : HttpClient) (_ : Request) :
    Except GoError Response :=
  .ok { StatusCode := code, Body := (body, none) }

/-- A configuration with a usable credential and an absolute base URL. -/
def exampleConfig : ClientConfig :=
  { ApiKey := "abc123", BaseUrl := "https://api.example.com/api/v1" }

/-- The client that `NewClientWithConfig` builds on the empty heap from the credential
`abc123` and the base URL `https://api.example.com/api/v1`. -/
def exampleClient : Client :=
  { Client := { Timeout := Second * 30, Transport := { ApiKey := "abc123" } },
    ApiKey := "abc123",
    BaseUrl := { Scheme := bytesOf "https", Host := bytesOf "api.example.com",
                 Path := bytesOf "/api/v1" },
    Contacts := some { Client := 0 },
    Domains := some { Client := 0 },
    Emails := some { Client := 0 } }

/-- A request as `NewRequest` builds it for `GET /contacts` on `exampleClient`. -/
def exampleRequest : Request :=
  { Method := "GET",
    URL := { Scheme := bytesOf "https", Host := bytesOf "api.example.com",
             Path := bytesOf "/contacts" },
    Host := bytesOf "api.example.com", Body := .nil, ContentLength := 0 }

/-! ## Auxiliary lemmas -/

theorem trimSpace_eq_empty_of_all_space (s : String)
    (h : ∀ ch ∈ s.data, IsSpace ch = true) : TrimSpace s = "" := by
  have h1 : s.data.dropWhile IsSpace = [] := by
    rw [List.dropWhile_eq_nil_iff]
    exact h
  unfold TrimSpace
  rw [h1]
  rfl

theorem parse_error_is_urlError (rawURL : Bytes) (err : GoError)
    (h : Parse rawURL = .error err) : ∃ u e, err = .urlError "parse" u e := by
  simp only [Parse] at h
  split at h
  · injection h with h
    exact ⟨_, _, h.symm⟩
  · split at h
    · cases h
    · split at h
      · injection h with h
        exact ⟨_, _, h.symm⟩
      · cases h

theorem bytesOf_length_eq_zero (data : String) (h : (bytesOf data).length = 0) :
    data = "" := by
  have hd : data.data = [] := by
    by_contra hne
    obtain ⟨ch, cs, hcs⟩ := List.exists_cons_of_ne_nil hne
    have h1 : (utf8EncodeRune ch.toNat).length ≠ 0 := by
      unfold utf8EncodeRune
      split_ifs <;> simp
    unfold bytesOf at h
    rw [hcs] at h
    simp only [List.flatMap_cons, List.length_append] at h
    omega
  cases data
  simp only at hd
  subst hd
  rfl

/-- The body and the content length of a request that `NewRequestWithContext` builds. -/
theorem newRequestWithContext_body (method : String) (url : Bytes) (body : Option String)
    (req : Request) (h : NewRequestWithContext method url body = .ok req) :
    req.Body = (match body with
      | none => .nil
      | some data => if (bytesOf data).length = 0 then .noBody else .reader data) ∧
    req.ContentLength = (match body with
      | none => 0
      | some data => (bytesOf data).length) := by
  unfold NewRequestWithContext at h
  simp only at h
  generalize (if method = "" then "GET" else method) = m at h
  by_cases hm : (!validMethod m) = true
  · rw [if_pos hm] at h
    cases h
  · rw [if_neg hm] at h
    cases hP : Parse url with
    | error e =>
      simp only [hP] at h
      cases h
    | ok u =>
      simp only [hP] at h
      injection h with h
      subst h
      cases body <;> exact ⟨rfl, rfl⟩

/-- Whether `NewRequestWithContext` succeeds does not depend on the body, and only the
fields `Body` and `ContentLength` of the request do. -/
theorem newRequestWithContext_change_body (method : String) (url : Bytes)
    (body1 body2 : Option String) (req1 : Request)
    (h : NewRequestWithContext method url body1 = .ok req1) :
    ∃ req2, NewRequestWithContext method url body2 = .ok req2 ∧
      req2.Method = req1.Method ∧ req2.URL = req1.URL ∧ req2.Host = req1.Host := by
  unfold NewRequestWithContext at h ⊢
  simp only at h ⊢
  generalize (if method = "" then "GET" else method) = m at h ⊢
  by_cases hm : (!validMethod m) = true
  · rw [if_pos hm] at h
    cases h
  · rw [if_neg hm] at h ⊢
    cases hP : Parse url with
    | error e =>
      simp only [hP] at h
      cases h
    | ok u =>
      simp only [hP] at h ⊢
      injection h with h
      subst h
      exact ⟨_, rfl, rfl, rfl, rfl⟩

/-- What holds of the object behind a pointer that `NewClientWithConfig` returns. -/
theorem newClientWithConfig_ok_inv (heap : Heap) (cfg : ClientConfig) (p : Ptr)
    (heap2 : Heap) (h : NewClientWithConfig heap cfg = (.ok p, heap2)) :
    ∃ client : Client, heap2.get? p = some client ∧
      TrimSpace client.ApiKey ≠ "" ∧ Parse (bytesOf cfg.BaseUrl) = .ok client.BaseUrl := by
  unfold NewClientWithConfig at h
  split at h
  · cases h
  · rename_i hkey
    split at h
    · cases h
    · rename_i baseUrl hurl
      simp only [Prod.mk.injEq, Except.ok.injEq] at h
      obtain ⟨hp, hheap⟩ := h
      subst hp
      subst hheap
      refine ⟨{ Client := { Timeout := Second * 30, Transport := { ApiKey := cfg.ApiKey } },
                ApiKey := cfg.ApiKey, BaseUrl := baseUrl,
                Contacts := some { Client := heap.length },
                Domains := some { Client := heap.length },
                Emails := some { Client := heap.length } }, by simp, hkey, hurl⟩

theorem splitSlash_ne_nil (s : Bytes) : splitSlash s ≠ [] := by
  cases s with
  | nil => simp [splitSlash]
  | cons c cs =>
    unfold splitSlash
    split_ifs
    · simp
    · split <;> simp

theorem joinElems_splitSlash (s : Bytes) : joinElems true (splitSlash s) = s := by
  induction s with
  | nil => simp [splitSlash, joinElems]
  | cons c cs ih =>
    unfold splitSlash
    cases hs : splitSlash cs with
    | nil => exact absurd hs (splitSlash_ne_nil cs)
    | cons x xs =>
      rw [hs] at ih
      simp only [joinElems] at ih
      split_ifs with hc
      · simp only [joinElems, List.nil_append, ih, hc]
      · simp only [joinElems, List.cons_append, ih]

theorem foldl_resolveStep_noDot (elems : List Bytes) :
    ∀ (dst : Bytes) (first : Bool), (∀ e ∈ elems, e ≠ [46] ∧ e ≠ [46, 46]) →
      (elems.foldl resolveStep (dst, first)).1 = dst ++ joinElems first elems := by
  induction elems with
  | nil => intro dst first _; cases first <;> simp [joinElems]
  | cons e es ih =>
    intro dst first h
    have he := h e (List.mem_cons_self _ _)
    have hes : ∀ x ∈ es, x ≠ [46] ∧ x ≠ [46, 46] :=
      fun x hx => h x (List.mem_cons_of_mem _ hx)
    rw [List.foldl_cons]
    have hstep : resolveStep (dst, first) e =
        ((if first then dst else dst ++ [47]) ++ e, false) := by
      unfold resolveStep
      rw [if_neg he.1, if_neg he.2]
    rw [hstep, ih _ _ hes]
    cases first <;> simp [joinElems]

/-- On a path without `.` and `..` elements, `resolvePath` only makes sure of the
leading slash. -/
theorem resolvePath_noDot (full : Bytes) (hne : full ≠ [])
    (hdot : ∀ e ∈ splitSlash full, e ≠ [46] ∧ e ≠ [46, 46]) :
    resolvePath full [] = if full.head? = some 47 then full else 47 :: full := by
  unfold resolvePath
  simp only [if_true, if_neg hne]
  rw [foldl_resolveStep_noDot _ _ _ hdot, joinElems_splitSlash]
  have hlast : ¬ ((splitSlash full).getLast?.getD [] = [46] ∨
      (splitSlash full).getLast?.getD [] = [46, 46]) := by
    cases hl : (splitSlash full).getLast? with
    | none => simp
    | some e =>
      have hmem : e ∈ splitSlash full := List.mem_of_getLast?_eq_some hl
      have := hdot e hmem
      simp only [Option.getD_some]
      tauto
  rw [if_neg hlast]
  cases full with
  | nil => exact absurd rfl hne
  | cons c cs =>
    simp only [List.singleton_append, List.length_cons, List.get?_cons_succ,
      List.get?_cons_zero, List.head?_cons, List.drop_succ_cons, List.drop_zero,
      Option.some.injEq]
    by_cases hc : c = 47
    · simp [hc]
    · simp [hc]

theorem resolvePath_eq_merge (base ref : Bytes) (href : ref ≠ []) :
    resolvePath base ref = resolvePath (mergePaths base ref) [] := by
  unfold resolvePath mergePaths
  simp only [if_neg href, if_true]

theorem unescapeCheck_noPercent (s : Bytes) (h : 37 ∉ s) :
    unescapeCheck .encodePath s = none := by
  induction s with
  | nil => rfl
  | cons c cs ih =>
    have hc : c ≠ 37 := fun hc => h (hc ▸ List.mem_cons_self _ _)
    have hcs : 37 ∉ cs := fun hm => h (List.mem_cons_of_mem _ hm)
    unfold unescapeCheck
    rw [if_neg hc]
    split_ifs with h1 h2
    · exact ih hcs
    · obtain ⟨hmode, -⟩ := h2
      rcases hmode with hmode | hmode <;> cases hmode
    · exact ih hcs

theorem unescapeDecode_noPercent (s : Bytes) (h : 37 ∉ s) :
    unescapeDecode .encodePath s = s := by
  induction s with
  | nil => rfl
  | cons c cs ih =>
    have hc : c ≠ 37 := fun hc => h (hc ▸ List.mem_cons_self _ _)
    have hcs : 37 ∉ cs := fun hm => h (List.mem_cons_of_mem _ hm)
    unfold unescapeDecode
    rw [if_neg hc]
    split_ifs with h1 h2
    · cases h2
    · rw [ih hcs, h1]
    · rw [ih hcs]

theorem unescape_noPercent (s : Bytes) (h : 37 ∉ s) : unescape s .encodePath = .ok s := by
  unfold unescape
  rw [unescapeCheck_noPercent s h, unescapeDecode_noPercent s h]

theorem escape_ne_nil (s : Bytes) (mode : Encoding) (h : s ≠ []) : escape s mode ≠ [] := by
  cases s with
  | nil => exact absurd rfl h
  | cons c cs =>
    unfold escape
    simp only [List.flatMap_cons]
    split_ifs <;> simp

theorem escapedPath_ne_nil (u : URL) (h : u.Path ≠ []) : u.EscapedPath ≠ [] := by
  unfold URL.EscapedPath
  simp only
  split_ifs with h1 h2
  · exact h1.1
  · simp
  · exact escape_ne_nil _ _ h

/-- The fields that `setPath` leaves alone. -/
theorem setPath_fields (u v : URL) (p : Bytes) (h : u.setPath p = .ok v) :
    v.Scheme = u.Scheme ∧ v.User = u.User ∧ v.Host = u.Host ∧
      unescape p .encodePath = .ok v.Path := by
  unfold URL.setPath at h
  split at h
  · cases h
  · rename_i path hp
    injection h with h
    subst h
    exact ⟨rfl, rfl, rfl, hp⟩

/-- The URL after `setPath` when its error is ignored, as `ResolveReference` does. -/
theorem setPath_ignoring_error (w : URL) (q : Bytes) :
    (match w.setPath q with
      | .ok v => v
      | .error _ => w).Scheme = w.Scheme ∧
    (match w.setPath q with
      | .ok v => v
      | .error _ => w).User = w.User ∧
    (match w.setPath q with
      | .ok v => v
      | .error _ => w).Host = w.Host ∧
    ∀ p, unescape q .encodePath = .ok p →
      (match w.setPath q with
        | .ok v => v
        | .error _ => w).Path = p := by
  cases hset : w.setPath q with
  | error e =>
    refine ⟨rfl, rfl, rfl, ?_⟩
    intro p hp
    unfold URL.setPath at hset
    rw [hp] at hset
    cases hset
  | ok v =>
    obtain ⟨h1, h2, h3, h4⟩ := setPath_fields _ _ _ hset
    refine ⟨h1, h2, h3, ?_⟩
    intro p hp
    rw [hp] at h4
    injection h4 with h4
    exact h4.symm

/-- Resolution of a reference that has only a path (and possibly a query and a
fragment) against a base URL. -/
theorem resolveReference_pathOnly (u ref : URL) (hscheme : ref.Scheme = [])
    (hhost : ref.Host = []) (huser : ref.User = none) (hopq : ref.Opaque = [])
    (hpath : ref.Path ≠ []) :
    (u.ResolveReference ref).Scheme = u.Scheme ∧
    (u.ResolveReference ref).User = u.User ∧
    (u.ResolveReference ref).Host = u.Host ∧
    ∀ p, unescape (resolvePath (mergePaths u.EscapedPath ref.EscapedPath) [])
        .encodePath = .ok p → (u.ResolveReference ref).Path = p := by
  have hrp := escapedPath_ne_nil ref hpath
  unfold URL.ResolveReference
  simp only [hscheme, hhost, huser, hopq, hpath, ne_eq, not_true_eq_false, or_self,
    if_false, if_true, false_and]
  rw [resolvePath_eq_merge _ _ hrp]
  exact setPath_ignoring_error _ _

/-- Resolution of a reference that has a scheme or an authority of its own. -/
theorem resolveReference_withAuthority (u ref : URL)
    (h : ref.Scheme ≠ [] ∨ ref.Host ≠ [] ∨ ref.User ≠ none) :
    (u.ResolveReference ref).Scheme = (if ref.Scheme = [] then u.Scheme else ref.Scheme) ∧
    (u.ResolveReference ref).User = ref.User ∧
    (u.ResolveReference ref).Host = ref.Host := by
  unfold URL.ResolveReference
  simp only [if_pos h]
  obtain ⟨h1, h2, h3, -⟩ :=
    setPath_ignoring_error (if ref.Scheme = [] then { ref with Scheme := u.Scheme } else ref)
      (resolvePath ref.EscapedPath [])
  rw [h1, h2, h3]
  split_ifs <;> exact ⟨rfl, rfl, rfl⟩

/-! ## Theorems -/

/-- C1: when the send and the body read succeed and the status code is outside
[200,300), `Client.Execute` returns the error with the text
`received non-2xx response: <code> - <body>`, for every body and every decoder, and
the result sink is left as it was: the body is not decoded into it. -/
theorem execute_non2xx_status_error {σ : Type}
    (doRequest : HttpClient → Request → Except GoError Response)
    (unmarshal : String → σ → σ × Option GoError) (c : Client) (req : Request)
    (result : σ) (resp : Response) (respBody : String)
    (hsend : doRequest c.Client req = .ok resp)
    (hread : resp.Body = (respBody, none))
    (hcode : resp.StatusCode < 200 ∨ resp.StatusCode ≥ 300) :
    Client.Execute doRequest unmarshal c req result =
      (result, some (.errorString
        ("received non-2xx response: " ++ formatInt resp.StatusCode ++ " - " ++ respBody))) := by
  unfold Client.Execute
  rw [hsend]
  simp only [hread]
  rw [if_pos hcode]

/-- Witness of C1: status 401 with the body `unauthorized`, and status 500 with a body
that the decoder of the sink would accept. -/
theorem execute_non2xx_status_error_witness :
    Client.Execute (constNetwork 401 "unauthorized") unmarshalIdName exampleClient
        exampleRequest ⟨"", ""⟩ =
      (⟨"", ""⟩, some (.errorString "received non-2xx response: 401 - unauthorized")) ∧
    Client.Execute (constNetwork 500 "\x7b\"id\":\"1\"\x7d") unmarshalIdName exampleClient
        exampleRequest ⟨"", ""⟩ =
      (⟨"", ""⟩,
        some (.errorString "received non-2xx response: 500 - \x7b\"id\":\"1\"\x7d")) :=
  ⟨execute_non2xx_status_error (constNetwork 401 "unauthorized") unmarshalIdName
      exampleClient exampleRequest ⟨"", ""⟩ ⟨401, ("unauthorized", none)⟩ "unauthorized"
      rfl rfl (by decide),
   execute_non2xx_status_error (constNetwork 500 "\x7b\"id\":\"1\"\x7d") unmarshalIdName
      exampleClient exampleRequest ⟨"", ""⟩ ⟨500, ("\x7b\"id\":\"1\"\x7d", none)⟩
      "\x7b\"id\":\"1\"\x7d" rfl rfl (by decide)⟩

/-- C2: when the send and the body read succeed, the status code is in [200,300) and
the body decodes into the result shape without error, `Client.Execute` returns no
error and the result sink holds the decoded value. -/
theorem execute_2xx_decodes {σ : Type}
    (doRequest : HttpClient → Request → Except GoError Response)
    (unmarshal : String → σ → σ × Option GoError) (c : Client) (req : Request)
    (result decoded : σ) (resp : Response) (respBody : String)
    (hsend : doRequest c.Client req = .ok resp)
    (hread : resp.Body = (respBody, none))
    (hlo : 200 ≤ resp.StatusCode) (hhi : resp.StatusCode < 300)
    (hdecode : unmarshal respBody result = (decoded, none)) :
    Client.Execute doRequest unmarshal c req result = (decoded, none) := by
  unfold Client.Execute
  rw [hsend]
  simp only [hread]
  rw [if_neg (by omega)]
  simp only [hdecode]

/-- Witness of C2: status 200 with the body `{"id":"1"}` decoded into the shape with a
string field `id`. -/
theorem execute_2xx_decodes_witness :
    Client.Execute (constNetwork 200 "\x7b\"id\":\"1\"\x7d") unmarshalIdName exampleClient
        exampleRequest ⟨"", ""⟩ = (⟨"1", ""⟩, none) :=
  execute_2xx_decodes (constNetwork 200 "\x7b\"id\":\"1\"\x7d") unmarshalIdName
    exampleClient exampleRequest ⟨"", ""⟩ ⟨"1", ""⟩ ⟨200, ("\x7b\"id\":\"1\"\x7d", none)⟩
    "\x7b\"id\":\"1\"\x7d" rfl rfl (by decide) (by decide) (by decide)

/-- C3: for a credential that is empty or made only of white space, and for every base
URL, `NewClientWithConfig` returns no Client (and allocates none) and fails with the
error `no value found for API Key`. -/
theorem newClientWithConfig_blank_credential (heap : Heap) (config : ClientConfig)
    (hblank : ∀ ch ∈ config.ApiKey.data, IsSpace ch = true) :
    NewClientWithConfig heap config =
      (.error (.errorString "no value found for API Key"), heap) := by
  unfold NewClientWithConfig
  rw [if_pos (trimSpace_eq_empty_of_all_space _ hblank)]

/-- Witness of C3: the credential of three spaces, with a base URL that parses and
with one that does not. -/
theorem newClientWithConfig_blank_credential_witness :
    NewClientWithConfig [] { ApiKey := "   ", BaseUrl := "https://api.example.com" } =
      (.error (.errorString "no value found for API Key"), []) ∧
    NewClientWithConfig [] { ApiKey := "", BaseUrl := ":" } =
      (.error (.errorString "no value found for API Key"), []) :=
  ⟨newClientWithConfig_blank_credential []
      { ApiKey := "   ", BaseUrl := "https://api.example.com" } (by decide),
   newClientWithConfig_blank_credential [] { ApiKey := "", BaseUrl := ":" } (by decide)⟩

/-- C4: for a credential that is not blank after trimming and a base URL that parses,
`NewClientWithConfig` succeeds and returns the address of a new Client whose `ApiKey`
is the configured credential, whose `BaseUrl` is the parsed base URL, whose transport
carries the same credential, and whose `Contacts`, `Domains` and `Emails` handles
each hold the address of that same Client. -/
theorem newClientWithConfig_success (heap : Heap) (config : ClientConfig) (baseUrl : URL)
    (hkey : TrimSpace config.ApiKey ≠ "")
    (hurl : Parse (bytesOf config.BaseUrl) = .ok baseUrl) :
    ∃ client : Client,
      NewClientWithConfig heap config = (.ok heap.length, heap ++ [client]) ∧
      (heap ++ [client]).get? heap.length = some client ∧
      client.ApiKey = config.ApiKey ∧
      client.BaseUrl = baseUrl ∧
      client.Client.Transport.ApiKey = config.ApiKey ∧
      client.Contacts = some { Client := heap.length } ∧
      client.Domains = some { Client := heap.length } ∧
      client.Emails = some { Client := heap.length } := by
  refine ⟨{ Client := { Timeout := Second * 30, Transport := { ApiKey := config.ApiKey } },
            ApiKey := config.ApiKey, BaseUrl := baseUrl,
            Contacts := some { Client := heap.length },
            Domains := some { Client := heap.length },
            Emails := some { Client := heap.length } }, ?_, ?_, rfl, rfl, rfl, rfl, rfl, rfl⟩
  · unfold NewClientWithConfig
    rw [if_neg hkey, hurl]
  · simp

/-- Witness of C4: the credential `abc123` with the base URL
`https://api.example.com/api/v1`, on the empty heap. -/
theorem newClientWithConfig_success_witness :
    ∃ client : Client,
      NewClientWithConfig [] exampleConfig = (.ok 0, [] ++ [client]) ∧
      ([] ++ [client]).get? 0 = some client ∧
      client.ApiKey = "abc123" ∧
      client.BaseUrl = exampleClient.BaseUrl ∧
      client.Client.Transport.ApiKey = "abc123" ∧
      client.Contacts = some { Client := 0 } ∧
      client.Domains = some { Client := 0 } ∧
      client.Emails = some { Client := 0 } :=
  newClientWithConfig_success [] exampleConfig exampleClient.BaseUrl
    (by decide) (by decide)

/-- C5: for a credential that is not blank and a base URL that `url.Parse` rejects,
`NewClientWithConfig` returns no Client (and allocates none) and fails with the error
of `url.Parse`, which is a `*url.Error` of the operation `parse`. -/
theorem newClientWithConfig_malformed_baseUrl (heap : Heap) (config : ClientConfig)
    (err : GoError) (hkey : TrimSpace config.ApiKey ≠ "")
    (hurl : Parse (bytesOf config.BaseUrl) = .error err) :
    NewClientWithConfig heap config = (.error err, heap) ∧
      ∃ u e, err = .urlError "parse" u e := by
  refine ⟨?_, parse_error_is_urlError _ _ hurl⟩
  unfold NewClientWithConfig
  rw [if_neg hkey, hurl]

/-- Witness of C5: the credential `abc123` with the base URL `:foo`, which has no
scheme before its colon. -/
theorem newClientWithConfig_malformed_baseUrl_witness :
    NewClientWithConfig [] { ApiKey := "abc123", BaseUrl := ":foo" } =
      (.error (.urlError "parse" (bytesOf ":foo") (.errorString "missing protocol scheme")),
        []) ∧
      ∃ u e, GoError.urlError "parse" (bytesOf ":foo")
        (.errorString "missing protocol scheme") = .urlError "parse" u e :=
  newClientWithConfig_malformed_baseUrl [] { ApiKey := "abc123", BaseUrl := ":foo" }
    (.urlError "parse" (bytesOf ":foo") (.errorString "missing protocol scheme"))
    (by decide) (by decide)

/-- C7: whenever `Client.NewRequest` builds a request, its payload is, for a body that
is not nil and that serializes to JSON, exactly the JSON text of that body, and for
a nil body the request has no body at all. -/
theorem newRequest_payload_is_json {β : Type} (encode : β → Except GoError String)
    (c : Client) (method urlAsString : String) (body : Option β) (req : Request)
    (hreq : Client.NewRequest encode c method urlAsString body = .ok req) :
    match body with
    | none => req.Body = .nil ∧ req.Body.payload = none
    | some b => ∀ data, encode b = .ok data → req.Body.payload = some data := by
  unfold Client.NewRequest at hreq
  split at hreq
  · cases hreq
  · have hbody := (newRequestWithContext_body _ _ _ _ hreq).1
    cases body with
    | none => simp only at hbody ⊢; rw [hbody]; exact ⟨rfl, rfl⟩
    | some b =>
      intro data hdata
      simp only [jsonMarshal, hdata] at hbody ⊢
      rw [hbody]
      by_cases hlen : (bytesOf data).length = 0
      · rw [if_pos hlen, bytesOf_length_eq_zero data hlen]
        rfl
      · rw [if_neg hlen]
        rfl

/-- Witness of C7: the body `42` on a `POST` to `/contacts`, and a nil body on a `GET`. -/
theorem newRequest_payload_is_json_witness :
    (∀ data, encodeIntOrChan (.int 42) = .ok data →
      ({ exampleRequest with Method := "POST", Body := .reader "42", ContentLength := 2 }
        : Request).Body.payload = some data) ∧
    (exampleRequest.Body = .nil ∧ exampleRequest.Body.payload = none) :=
  ⟨newRequest_payload_is_json encodeIntOrChan exampleClient "POST" "/contacts"
      (some (.int 42))
      { exampleRequest with Method := "POST", Body := .reader "42", ContentLength := 2 }
      (by decide),
   newRequest_payload_is_json encodeIntOrChan exampleClient "GET" "/contacts" none
      exampleRequest (by decide)⟩

/-- The amended C8: when `Client.Execute` returns an error for a transport failure, a
body read failure or a status code outside [200,300), the result sink is left as it
was; when it returns an error for a decode failure, the sink is left as
`json.Unmarshal` left it. -/
theorem execute_error_sink {σ : Type}
    (doRequest : HttpClient → Request → Except GoError Response)
    (unmarshal : String → σ → σ × Option GoError) (c : Client) (req : Request)
    (result after : σ) (err : GoError)
    (herr : Client.Execute doRequest unmarshal c req result = (after, some err)) :
    (after = result ∧ ∃ e, doRequest c.Client req = .error e ∧
        err = .wrapError "request failed: " e) ∨
    (after = result ∧ ∃ resp data e, doRequest c.Client req = .ok resp ∧
        resp.Body = (data, some e) ∧ err = .wrapError "failed to read response body: " e) ∨
    (after = result ∧ ∃ resp respBody, doRequest c.Client req = .ok resp ∧
        resp.Body = (respBody, none) ∧ (resp.StatusCode < 200 ∨ resp.StatusCode ≥ 300) ∧
        err = .errorString
          ("received non-2xx response: " ++ formatInt resp.StatusCode ++ " - " ++ respBody)) ∨
    (∃ resp respBody e, doRequest c.Client req = .ok resp ∧
        resp.Body = (respBody, none) ∧ 200 ≤ resp.StatusCode ∧ resp.StatusCode < 300 ∧
        unmarshal respBody result = (after, some e) ∧
        err = .wrapError "failed to unmarshal response: " e) := by
  unfold Client.Execute at herr
  split at herr
  · rename_i e he
    injection herr with h1 h2
    injection h2 with h2
    exact Or.inl ⟨h1.symm, e, he, h2.symm⟩
  · rename_i resp hresp
    split at herr
    · rename_i data e hbody
      injection herr with h1 h2
      injection h2 with h2
      exact Or.inr (Or.inl ⟨h1.symm, resp, data, e, hresp, hbody, h2.symm⟩)
    · rename_i respBody hbody
      split at herr
      · rename_i hcode
        injection herr with h1 h2
        injection h2 with h2
        exact Or.inr (Or.inr (Or.inl ⟨h1.symm, resp, respBody, hresp, hbody, hcode, h2.symm⟩))
      · rename_i hcode
        split at herr
        · rename_i decoded e hdec
          injection herr with h1 h2
          injection h2 with h2
          subst h1
          refine Or.inr (Or.inr (Or.inr ⟨resp, respBody, e, hresp, hbody, ?_, ?_, hdec, h2.symm⟩))
          · omega
          · omega
        · cases herr

/-- Witness of the amended C8: status 401 leaves the sink as it was. -/
theorem execute_error_sink_witness :
    ((⟨"", ""⟩ : IdName) = ⟨"", ""⟩ ∧ ∃ e, constNetwork 401 "unauthorized" exampleClient.Client
        exampleRequest = .error e ∧
        GoError.errorString "received non-2xx response: 401 - unauthorized" =
          .wrapError "request failed: " e) ∨
    ((⟨"", ""⟩ : IdName) = ⟨"", ""⟩ ∧ ∃ resp data e,
        constNetwork 401 "unauthorized" exampleClient.Client exampleRequest = .ok resp ∧
        resp.Body = (data, some e) ∧
        GoError.errorString "received non-2xx response: 401 - unauthorized" =
          .wrapError "failed to read response body: " e) ∨
    ((⟨"", ""⟩ : IdName) = ⟨"", ""⟩ ∧ ∃ resp respBody,
        constNetwork 401 "unauthorized" exampleClient.Client exampleRequest = .ok resp ∧
        resp.Body = (respBody, none) ∧ (resp.StatusCode < 200 ∨ resp.StatusCode ≥ 300) ∧
        GoError.errorString "received non-2xx response: 401 - unauthorized" =
          .errorString
            ("received non-2xx response: " ++ formatInt resp.StatusCode ++ " - " ++
              respBody)) ∨
    (∃ resp respBody e,
        constNetwork 401 "unauthorized" exampleClient.Client exampleRequest = .ok resp ∧
        resp.Body = (respBody, none) ∧ 200 ≤ resp.StatusCode ∧ resp.StatusCode < 300 ∧
        unmarshalIdName respBody ⟨"", ""⟩ = (⟨"", ""⟩, some e) ∧
        GoError.errorString "received non-2xx response: 401 - unauthorized" =
          .wrapError "failed to unmarshal response: " e) :=
  execute_error_sink (constNetwork 401 "unauthorized") unmarshalIdName exampleClient
    exampleRequest ⟨"", ""⟩ ⟨"", ""⟩
    (.errorString "received non-2xx response: 401 - unauthorized") (by decide)

/-- Counterexample to C8: on status 200 with the body `{"id":"1","name":2}`, decoding
into a shape with the string fields `id` and `name` fails on `name`, so `Execute`
returns an error, and yet the sink, which was empty, now holds the decoded `id`. -/
theorem execute_decode_failure_changes_sink :
    Client.Execute (constNetwork 200 "\x7b\"id\":\"1\",\"name\":2\x7d") unmarshalIdName
        exampleClient exampleRequest ⟨"", ""⟩ =
      (⟨"1", ""⟩, some (.wrapError "failed to unmarshal response: "
        (.unmarshalTypeError "number" "name"))) ∧
    (⟨"1", ""⟩ : IdName) ≠ ⟨"", ""⟩ := by
  decide

/-- The amended C9: every Client returned by `NewClientWithConfig`, and hence by
`NewClient`, has a credential that is not empty after trimming white space and a base
URL that is what `url.Parse` returns, without error, for the configured base URL. -/
theorem newClient_invariant (heap : Heap) (config : ClientConfig) (p : Ptr) (heap2 : Heap)
    (hnew : NewClientWithConfig heap config = (.ok p, heap2)) :
    ∃ client : Client, heap2.get? p = some client ∧
      TrimSpace client.ApiKey ≠ "" ∧
      Parse (bytesOf config.BaseUrl) = .ok client.BaseUrl ∧
      ∀ (k : Consts) (env : Env) (out : List String),
        NewClient k env heap = ((.ok p, heap2), out) →
        ∃ client2 : Client, heap2.get? p = some client2 ∧
          TrimSpace client2.ApiKey ≠ "" ∧
          Parse (bytesOf (GetEnvOrDefault env k.ENV_KEY_BASE_URL k.DEFAULT_BASE_URL).1) =
            .ok client2.BaseUrl := by
  obtain ⟨client, h1, h2, h3⟩ := newClientWithConfig_ok_inv heap config p heap2 hnew
  refine ⟨client, h1, h2, h3, ?_⟩
  intro k env out hnc
  unfold NewClient at hnc
  simp only [Prod.mk.injEq] at hnc
  exact newClientWithConfig_ok_inv heap _ p heap2 hnc.1

/-- Witness of the amended C9: the client built from `abc123` and
`https://api.example.com/api/v1`. -/
theorem newClient_invariant_witness :
    ∃ client : Client, [exampleClient].get? 0 = some client ∧
      TrimSpace client.ApiKey ≠ "" ∧
      Parse (bytesOf exampleConfig.BaseUrl) = .ok client.BaseUrl ∧
      ∀ (k : Consts) (env : Env) (out : List String),
        NewClient k env [] = ((.ok 0, [exampleClient]), out) →
        ∃ client2 : Client, [exampleClient].get? 0 = some client2 ∧
          TrimSpace client2.ApiKey ≠ "" ∧
          Parse (bytesOf (GetEnvOrDefault env k.ENV_KEY_BASE_URL k.DEFAULT_BASE_URL).1) =
            .ok client2.BaseUrl :=
  newClient_invariant [] exampleConfig 0 [exampleClient] (by decide)

/-- Counterexample to C9: with the credential `abc123` and the base URL
`api.example.com/v1`, `NewClientWithConfig` succeeds, and the Client it returns has a
base URL without a scheme (and without a host): it is not an absolute URL. -/
theorem newClientWithConfig_baseUrl_not_absolute :
    ∃ client : Client,
      NewClientWithConfig [] { ApiKey := "abc123", BaseUrl := "api.example.com/v1" } =
        (.ok 0, [client]) ∧
      client.BaseUrl.Scheme = [] ∧ client.BaseUrl.Host = [] ∧
      client.BaseUrl.Path = bytesOf "api.example.com/v1" :=
  ⟨{ exampleClient with BaseUrl := { Path := bytesOf "api.example.com/v1" } },
    by decide, rfl, rfl, rfl⟩

/-- C10: for a body that is not nil and whose JSON serialization fails, when method and
reference are valid (the request builds with a nil body), `Client.NewRequest` returns
no error and builds the same request with an empty body of zero bytes. -/
theorem newRequest_marshal_failure_tolerated {β : Type}
    (encode : β → Except GoError String) (c : Client) (method urlAsString : String)
    (b : β) (err : GoError) (req0 : Request)
    (hfail : encode b = .error err)
    (hvalid : Client.NewRequest encode c method urlAsString none = .ok req0) :
    Client.NewRequest encode c method urlAsString (some b) =
        .ok { req0 with Body := .noBody } ∧
      ({ req0 with Body := .noBody } : Request).Body.payload = some "" ∧
      ({ req0 with Body := .noBody } : Request).ContentLength = 0 := by
  unfold Client.NewRequest at hvalid ⊢
  split at hvalid
  · cases hvalid
  · simp only [jsonMarshal, hfail]
    simp only at hvalid
    obtain ⟨req2, h2, hm, hu, hh⟩ :=
      newRequestWithContext_change_body _ _ none (some "") _ hvalid
    have hb0 := newRequestWithContext_body _ _ _ _ hvalid
    have hb2 := newRequestWithContext_body _ _ _ _ h2
    simp only at hb0
    have hb2a : req2.Body = .noBody := hb2.1
    have hb2b : req2.ContentLength = 0 := hb2.2
    have heq : req2 = { req0 with Body := .noBody } := by
      cases req2
      cases req0
      simp only at hm hu hh hb2a hb2b hb0
      simp only [Request.mk.injEq]
      exact ⟨hm, hu, hh, hb2a, hb2b.trans hb0.2.symm⟩
    rw [h2, heq]
    exact ⟨rfl, rfl, hb0.2⟩

/-- Witness of C10: a channel as the body of a `POST` to `/contacts`. -/
theorem newRequest_marshal_failure_tolerated_witness :
    Client.NewRequest encodeIntOrChan exampleClient "POST" "/contacts" (some .chan) =
        .ok { ({ exampleRequest with Method := "POST" } : Request) with Body := .noBody } ∧
      ({ ({ exampleRequest with Method := "POST" } : Request) with
          Body := .noBody } : Request).Body.payload = some "" ∧
      ({ ({ exampleRequest with Method := "POST" } : Request) with
          Body := .noBody } : Request).ContentLength = 0 :=
  newRequest_marshal_failure_tolerated encodeIntOrChan exampleClient "POST" "/contacts"
    .chan (.unsupportedTypeError "chan int") { exampleRequest with Method := "POST" }
    rfl (by decide)

/-- The amended C6: for every Client and every reference string that parses,
`Client.NewRequest` builds the request from the string form of the reference resolved
against the base URL. A reference with a scheme or an authority of its own keeps its
user information and host (and its scheme, if it has one). For a reference with only
a path, the scheme, user information and host are those of the base URL, and the path
is the merge of RFC 3986 with its `.` and `..` elements removed, where the merge is
the reference path itself when it starts with a slash, and otherwise the reference
path put after the base path cut after its last slash (the last element of the base
path is replaced, not kept); when the merge has no `.` or `..` element and no percent
sign, the resolved path is the merge, with a slash in front if it has none. -/
theorem newRequest_resolves_reference {β : Type} (encode : β → Except GoError String)
    (c : Client) (method urlAsString : String) (body : Option β) (ref : URL)
    (hparse : Parse (bytesOf urlAsString) = .ok ref) :
    ∃ url : URL, c.BaseUrl.Parse (bytesOf urlAsString) = .ok url ∧
      Client.NewRequest encode c method urlAsString body =
        NewRequestWithContext method url.String
          (body.map fun b => (jsonMarshal encode b).1) ∧
      (ref.Scheme ≠ [] ∨ ref.Host ≠ [] ∨ ref.User ≠ none →
        url.Scheme = (if ref.Scheme = [] then c.BaseUrl.Scheme else ref.Scheme) ∧
        url.User = ref.User ∧ url.Host = ref.Host) ∧
      (ref.Scheme = [] → ref.Host = [] → ref.User = none → ref.Opaque = [] →
        ref.Path ≠ [] →
        url.Scheme = c.BaseUrl.Scheme ∧ url.User = c.BaseUrl.User ∧
        url.Host = c.BaseUrl.Host ∧
        (∀ p, unescape (resolvePath (mergePaths c.BaseUrl.EscapedPath ref.EscapedPath) [])
            .encodePath = .ok p → url.Path = p) ∧
        ((∀ e ∈ splitSlash (mergePaths c.BaseUrl.EscapedPath ref.EscapedPath),
            e ≠ [46] ∧ e ≠ [46, 46]) →
          37 ∉ mergePaths c.BaseUrl.EscapedPath ref.EscapedPath →
          url.Path =
            if (mergePaths c.BaseUrl.EscapedPath ref.EscapedPath).head? = some 47 then
              mergePaths c.BaseUrl.EscapedPath ref.EscapedPath
            else 47 :: mergePaths c.BaseUrl.EscapedPath ref.EscapedPath)) := by
  refine ⟨c.BaseUrl.ResolveReference ref, ?_, ?_,
    resolveReference_withAuthority c.BaseUrl ref, ?_⟩
  · unfold URL.Parse
    rw [hparse]
  · unfold Client.NewRequest URL.Parse
    rw [hparse]
    cases body <;> rfl
  · intro hscheme hhost huser hopq hpath
    have hrp := escapedPath_ne_nil ref hpath
    obtain ⟨h1, h2, h3, h4⟩ :=
      resolveReference_pathOnly c.BaseUrl ref hscheme hhost huser hopq hpath
    refine ⟨h1, h2, h3, h4, ?_⟩
    intro hdot hpct
    apply h4
    have hne : mergePaths c.BaseUrl.EscapedPath ref.EscapedPath ≠ [] := by
      unfold mergePaths
      split_ifs
      · simp [hrp]
      · exact hrp
    rw [resolvePath_noDot _ hne hdot]
    apply unescape_noPercent
    split_ifs
    · exact hpct
    · simp only [List.mem_cons, not_or]
      exact ⟨by decide, hpct⟩

/-- Witness of the amended C6: on the base URL `https://api.example.com/api/v1`, the
reference `contacts` resolves to the host of the base URL and the path `/api/contacts`,
and the reference `/contacts` to the path `/contacts`. -/
theorem newRequest_resolves_reference_witness :
    (∃ url : URL, exampleClient.BaseUrl.Parse (bytesOf "contacts") = .ok url ∧
      url.Host = bytesOf "api.example.com" ∧ url.Path = bytesOf "/api/contacts") ∧
    (∃ url : URL, exampleClient.BaseUrl.Parse (bytesOf "/contacts") = .ok url ∧
      url.Host = bytesOf "api.example.com" ∧ url.Path = bytesOf "/contacts") := by
  constructor
  · obtain ⟨url, h1, -, -, h2⟩ :=
      newRequest_resolves_reference encodeIntOrChan exampleClient "GET" "contacts" none
        { Path := bytesOf "contacts" } (by decide)
    obtain ⟨-, -, h3, -, h4⟩ := h2 rfl rfl rfl rfl (by decide)
    exact ⟨url, h1, h3, (h4 (by decide) (by decide)).trans (by decide)⟩
  · obtain ⟨url, h1, -, -, h2⟩ :=
      newRequest_resolves_reference encodeIntOrChan exampleClient "GET" "/contacts" none
        { Path := bytesOf "/contacts" } (by decide)
    obtain ⟨-, -, h3, -, h4⟩ := h2 rfl rfl rfl rfl (by decide)
    exact ⟨url, h1, h3, (h4 (by decide) (by decide)).trans (by decide)⟩

/-- Counterexample to C6: on the base URL `https://api.example.com/api/v1`, the
relative reference `contacts` gives the target path `/api/contacts`, which is not the
reference appended to the base path `/api/v1`; and the reference
`http://other.example.org/x` gives a target whose scheme and host are not those of the
base URL. -/
theorem newRequest_relative_reference_not_appended :
    Client.NewRequest encodeIntOrChan exampleClient "GET" "contacts" none =
      .ok { exampleRequest with
            URL := { exampleRequest.URL with Path := bytesOf "/api/contacts" } } ∧
    bytesOf "/api/contacts" ≠ exampleClient.BaseUrl.Path ++ bytesOf "contacts" ∧
    bytesOf "/api/contacts" ≠ exampleClient.BaseUrl.Path ++ bytesOf "/contacts" ∧
    Client.NewRequest encodeIntOrChan exampleClient "GET" "http://other.example.org/x" none =
      .ok { exampleRequest with
            URL := { Scheme := bytesOf "http", Host := bytesOf "other.example.org",
                     Path := bytesOf "/x" },
            Host := bytesOf "other.example.org" } ∧
    bytesOf "other.example.org" ≠ exampleClient.BaseUrl.Host := by
  decide

end Unsend
